import Mathlib

/-!
Shallow embedding of the Algorand trading contract in src/contracts.py
(PyTEAL, TEAL v5 application).  The approval program dispatches on the
first application argument: open, buy, close, cancel; create runs when
the application id is 0.  Global state holds three keys: o_price,
seller, token_id.  Rejection of a call (a failed Assert, an explicit
Reject, or a TEAL runtime error such as an out-of-range group access,
a missing argument, or a 64-bit multiplication overflow) aborts the
whole atomic transaction group, so a rejected call is modelled as
returning none: no state change and no inner transactions are applied.
A successful call returns the new global state together with the list
of inner transactions it submitted, in order.
-/

namespace Trading

/-- Byte strings (addresses, application arguments) as lists of byte values. -/
abbrev Bytes := List Nat

/-- Transaction type field, as read by type_enum. -/
inductive TxnType where
  | payment
  | assetTransfer
  | applicationCall
  | otherType
  deriving DecidableEq, Repr

/-- The contract's global key-value store: keys o_price, seller, token_id.
An unset uint key reads as 0 and an unset bytes key reads as the empty
byte string, which is how a fresh store is represented. -/
structure GlobalState where
  open_price : Nat
  seller : Bytes
  token_id : Nat
  deriving DecidableEq, Repr

/-- Fields of a transaction in the atomic group, as read through Gtxn
plus the fields the host ledger needs to apply it. The contract itself
only reads type_enum, xfer_asset and amount. -/
structure GTxn where
  type_enum : TxnType
  xfer_asset : Nat := 0
  amount : Nat := 0
  sender : Bytes := []
  receiver : Bytes := []
  asset_amount : Nat := 0
  deriving DecidableEq, Repr

/-- An inner transaction built with InnerTxnBuilder. Fields not listed in
SetFields keep the AVM zero value: 0 amounts, empty addresses, and an
unset asset_close_to is represented as none. -/
structure InnerTxn where
  type_enum : TxnType
  sender : Bytes := []
  receiver : Bytes := []
  amount : Nat := 0
  xfer_asset : Nat := 0
  asset_receiver : Bytes := []
  asset_close_to : Option Bytes := none
  asset_amount : Nat := 0
  deriving DecidableEq, Repr

/-- OnCompletion of the application call. -/
inductive OnComplete where
  | noOp
  | deleteApplication
  | optIn
  | closeOut
  | updateApplication
  deriving DecidableEq, Repr

/-- The fields of the calling transaction read through Txn. -/
structure Txn where
  sender : Bytes
  application_args : List Bytes
  assets : List Nat
  group_index : Nat
  application_id : Nat
  on_completion : OnComplete
  deriving DecidableEq, Repr

/-- Environment reads available to the program: the application account's
address, its microalgo balance as read by Balance, and its holding of the
traded asset as read by AssetHolding.balance (none when the application
account is not opted in to the asset, in which case the value reads 0). -/
structure Ctx where
  app_addr : Bytes
  app_balance : Nat
  app_asset_holding : Option Nat
  deriving DecidableEq, Repr

/-- Btoi: big-endian bytes to uint64; a TEAL error (none) on inputs longer
than 8 bytes. -/
def btoi (b : Bytes) : Option Nat :=
  if b.length ≤ 8 then some (b.foldl (fun acc x => acc * 256 + x) 0) else none

/-- TEAL 64-bit multiplication: errors (none) when the product overflows. -/
def mul64 (a b : Nat) : Option Nat :=
  if a * b < 2 ^ 64 then some (a * b) else none

/-- Selector bytes for the open method. -/
def bytes_open : Bytes := [111, 112, 101, 110]

/-- Selector bytes for the buy method. -/
def bytes_buy : Bytes := [98, 117, 121]

/-- Selector bytes for the close method. -/
def bytes_close : Bytes := [99, 108, 111, 115, 101]

/-- Selector bytes for the cancel method. -/
def bytes_cancel : Bytes := [99, 97, 110, 99, 101, 108]

/-- Subroutine send_algo_to: if Balance(current application address) is not
zero, submit an inner payment of the given amount from the application
account to the given account; otherwise do nothing. -/
def send_algo_to (ctx : Ctx) (account : Bytes) (amount : Nat) : List InnerTxn :=
  if ctx.app_balance ≠ 0 then
    [{ type_enum := TxnType.payment, sender := ctx.app_addr,
       receiver := account, amount := amount }]
  else []

/-- Handler on_create: stores Txn.assets 0 under token_id and approves.
Reading Txn.assets 0 with an empty foreign-asset array is a TEAL error,
which rejects the creation. The rest of a fresh store reads as zeros. -/
def on_create (txn : Txn) : Option (GlobalState × List InnerTxn) :=
  match txn.assets.head? with
  | none => none
  | some tid => some ({ open_price := 0, seller := [], token_id := tid }, [])

/-- The inner asset transfer submitted by on_open: only type_enum,
xfer_asset and asset_receiver are set; asset_amount stays 0, so it is the
application account's self opt-in to the asset, moving zero units. -/
def open_inner (tid : Nat) (addr : Bytes) : InnerTxn :=
  { type_enum := TxnType.assetTransfer, xfer_asset := tid, asset_receiver := addr }

/-- Handler on_open: asserts that the group transaction right after the
call is an asset transfer of token_id, records open_price := Btoi of
application argument 1 and seller := Txn.sender, submits the self
opt-in inner transfer, and approves. A missing argument, an out-of-range
group index or a failed assert rejects the group. -/
def on_open (st : GlobalState) (ctx : Ctx) (txn : Txn) (group : List GTxn) :
    Option (GlobalState × List InnerTxn) :=
  match txn.application_args.get? 1 with
  | none => none
  | some pb =>
    match btoi pb with
    | none => none
    | some price =>
      match group.get? (txn.group_index + 1) with
      | none => none
      | some sib =>
        if sib.type_enum = TxnType.assetTransfer ∧ sib.xfer_asset = st.token_id then
          some ({ st with open_price := price, seller := txn.sender },
                [open_inner st.token_id ctx.app_addr])
        else none

/-- The inner asset transfer submitted by on_buy and on_cancel: only
type_enum, xfer_asset and asset_close_to are set, so it moves the whole
custodial holding to the close-to address and removes the holding. -/
def closeout_inner (tid : Nat) (dest : Bytes) : InnerTxn :=
  { type_enum := TxnType.assetTransfer, xfer_asset := tid, asset_close_to := some dest }

/-- Handler on_buy: the group transaction right before the call must be a
payment whose amount equals open_price times the application account's
holding of token_id, Txn.assets 0 must equal token_id, and the holding
value must be positive; then the whole holding is closed out to the
caller. Group index 0 underflows the index subtraction, a TEAL error. -/
def on_buy (st : GlobalState) (ctx : Ctx) (txn : Txn) (group : List GTxn) :
    Option (GlobalState × List InnerTxn) :=
  if txn.group_index = 0 then none
  else
    match group.get? (txn.group_index - 1) with
    | none => none
    | some pt =>
      match txn.assets.head? with
      | none => none
      | some a0 =>
        match mul64 st.open_price (ctx.app_asset_holding.getD 0) with
        | none => none
        | some prod =>
          if pt.type_enum = TxnType.payment ∧ pt.amount = prod ∧
              st.token_id = a0 ∧ 0 < ctx.app_asset_holding.getD 0 then
            some (st, [closeout_inner st.token_id txn.sender])
          else none

/-- Handler on_close: asserts the stored seller equals Txn.sender; then, if
the application account has a holding record of token_id, calls
send_algo_to with amount open_price times the holding value (a 64-bit
multiplication, which errors on overflow); approves. Note the amount paid
is derived from the asset holding, not from the account's microalgo
balance, and nothing at all is paid when the holding record is absent. -/
def on_close (st : GlobalState) (ctx : Ctx) (txn : Txn) :
    Option (GlobalState × List InnerTxn) :=
  if st.seller = txn.sender then
    match ctx.app_asset_holding with
    | none => some (st, [])
    | some v =>
      match mul64 st.open_price v with
      | none => none
      | some amt => some (st, send_algo_to ctx txn.sender amt)
  else none

/-- Handler on_cancel: asserts token_id equals Txn.assets 0; if the
application account has a holding record of token_id, closes the whole
holding out to the caller and approves, otherwise falls through to an
explicit Reject. -/
def on_cancel (st : GlobalState) (ctx : Ctx) (txn : Txn) :
    Option (GlobalState × List InnerTxn) :=
  match txn.assets.head? with
  | none => none
  | some a0 =>
    if st.token_id = a0 then
      match ctx.app_asset_holding with
      | some _ => some (st, [closeout_inner st.token_id txn.sender])
      | none => none
    else none

/-- Method dispatch on application argument 0; a selector matching no
branch of the Cond is a TEAL error. -/
def on_call (st : GlobalState) (ctx : Ctx) (txn : Txn) (group : List GTxn) :
    Option (GlobalState × List InnerTxn) :=
  match txn.application_args.head? with
  | none => none
  | some m =>
    if m = bytes_open then on_open st ctx txn group
    else if m = bytes_buy then on_buy st ctx txn group
    else if m = bytes_close then on_close st ctx txn
    else if m = bytes_cancel then on_cancel st ctx txn
    else none

/-- Handler on_delete: approves without touching state. -/
def on_delete (st : GlobalState) : Option (GlobalState × List InnerTxn) :=
  some (st, [])

/-- The approval program: create when application_id is 0, otherwise
dispatch on OnCompletion; opt-in, close-out and update are rejected. -/
def approval_program (st : GlobalState) (ctx : Ctx) (txn : Txn) (group : List GTxn) :
    Option (GlobalState × List InnerTxn) :=
  if txn.application_id = 0 then on_create txn
  else
    match txn.on_completion with
    | OnComplete.noOp => on_call st ctx txn group
    | OnComplete.deleteApplication => on_delete st
    | OnComplete.optIn => none
    | OnComplete.closeOut => none
    | OnComplete.updateApplication => none

/-- The clear state program: always approves, touching nothing. -/
def clear_state_program (st : GlobalState) : Option (GlobalState × List InnerTxn) :=
  some (st, [])

/-- Modelled from the spec: the host ledger visible to the contract. It
tracks every account's microalgo balance and its holding of the single
traded asset; none means the account is not opted in to that asset, and
AssetHolding.balance then reads 0. Fees and minimum balances are not
modelled; the spec treats the host as submit and wait around balance
moves. -/
structure Ledger where
  algo : Bytes → Nat
  asset : Bytes → Option Nat

/-- Pointwise update of an account map. -/
def updMap {α : Type} (f : Bytes → α) (a : Bytes) (v : α) : Bytes → α :=
  fun x => if x = a then v else f x

/-- Modelled from the spec: applying a payment on the host ledger. The
sender must cover the amount; the amount moves from sender to receiver. -/
def payApply (l : Ledger) (s r : Bytes) (m : Nat) : Option Ledger :=
  if m ≤ l.algo s then
    let f1 := updMap l.algo s (l.algo s - m)
    some { l with algo := updMap f1 r (f1 r + m) }
  else none

/-- Modelled from the spec: applying a transfer of the traded asset on the
host ledger, per the host chain's asset-transfer rules. A sender with no
holding may only self-transfer zero units, which opts it in (creates a
zero holding). Otherwise the amount must be covered, a positive amount
needs an opted-in receiver, and a close-to address receives the whole
remainder after which the sender's holding record is removed (the
full-balance close-out the spec describes for buy and cancel). -/
def axferApply (l : Ledger) (s r : Bytes) (cto : Option Bytes) (m : Nat) :
    Option Ledger :=
  match l.asset s with
  | none =>
    if m = 0 ∧ r = s ∧ cto = none then
      some { l with asset := updMap l.asset s (some 0) }
    else none
  | some b =>
    if m ≤ b then
      let h1 := updMap l.asset s (some (b - m))
      match (if m = 0 then some h1 else
              match h1 r with
              | some rb => some (updMap h1 r (some (rb + m)))
              | none => none) with
      | none => none
      | some h2 =>
        match cto with
        | none => some { l with asset := h2 }
        | some c =>
          if c = s then none
          else
            match h2 c with
            | some cb =>
              some { l with asset := updMap (updMap h2 c (some (cb + (h2 s).getD 0))) s none }
            | none =>
              if (h2 s).getD 0 = 0 then some { l with asset := updMap h2 s none }
              else none
    else none

/-- Modelled from the spec: applying an inner transaction submitted by the
application. The host forces the sender of an inner transaction to be the
application account. An inner transfer of any other asset than the traded
one would need a holding the application account cannot have and fails. -/
def applyInnerTxn (tid : Nat) (appAddr : Bytes) (l : Ledger) (t : InnerTxn) :
    Option Ledger :=
  match t.type_enum with
  | TxnType.payment => payApply l appAddr t.receiver t.amount
  | TxnType.assetTransfer =>
    if t.xfer_asset = tid then
      axferApply l appAddr t.asset_receiver t.asset_close_to t.asset_amount
    else none
  | _ => none

/-- Applying a list of inner transactions in submission order. -/
def applyInners (tid : Nat) (appAddr : Bytes) (l : Ledger) (ts : List InnerTxn) :
    Option Ledger :=
  List.foldlM (applyInnerTxn tid appAddr) l ts

/-- Modelled from the spec: applying an outer group transaction (a sibling
payment or asset deposit) on the host ledger; transactions of other kinds
or touching other assets leave the tracked balances unchanged. -/
def applyGTxn (tid : Nat) (l : Ledger) (t : GTxn) : Option Ledger :=
  match t.type_enum with
  | TxnType.payment => payApply l t.sender t.receiver t.amount
  | TxnType.assetTransfer =>
    if t.xfer_asset = tid then axferApply l t.sender t.receiver none t.asset_amount
    else some l
  | _ => some l

/-- Ctx as the program reads it from a ledger state. -/
def mkCtx (appAddr : Bytes) (l : Ledger) : Ctx :=
  { app_addr := appAddr, app_balance := l.algo appAddr,
    app_asset_holding := l.asset appAddr }

/-- Application account address of the concrete trade run. -/
def trade_app_addr : Bytes := [9]

/-- Seller address of the concrete trade run. -/
def trade_seller : Bytes := [1]

/-- Buyer address of the concrete trade run. -/
def trade_buyer : Bytes := [2]

/-- Asset id of the concrete trade run. -/
def trade_tid : Nat := 7

/-- Price 100000 as the 8-byte big-endian argument the client sends. -/
def trade_price_bytes : Bytes := [0, 0, 0, 0, 0, 1, 134, 160]

/-- Initial ledger: the seller holds 100 units of the asset, the buyer is
opted in and holds 6000000 microalgos, the application account is fresh
with no microalgos and no holding. -/
def trade_l0 : Ledger :=
  { algo := fun a => if a = trade_buyer then 6000000 else 0,
    asset := fun a =>
      if a = trade_seller then some 100
      else if a = trade_buyer then some 0
      else none }

/-- The instantiation transaction, referencing the traded asset. -/
def trade_create_txn : Txn :=
  { sender := trade_seller, application_args := [], assets := [trade_tid],
    group_index := 0, application_id := 0, on_completion := OnComplete.noOp }

/-- The open call at group index 0: price 100000. -/
def trade_open_txn : Txn :=
  { sender := trade_seller, application_args := [bytes_open, trade_price_bytes],
    assets := [], group_index := 0, application_id := 1,
    on_completion := OnComplete.noOp }

/-- The sibling deposit at group index 1: 50 units from the seller into
the application account. -/
def trade_deposit_gtxn : GTxn :=
  { type_enum := TxnType.assetTransfer, xfer_asset := trade_tid,
    sender := trade_seller, receiver := trade_app_addr, asset_amount := 50 }

/-- The open group: the call followed by the deposit. -/
def trade_open_group : List GTxn :=
  [{ type_enum := TxnType.applicationCall, sender := trade_seller },
   trade_deposit_gtxn]

/-- The buyer's payment at group index 0: 100000 times 50 microalgos. -/
def trade_pay_gtxn : GTxn :=
  { type_enum := TxnType.payment, amount := 5000000,
    sender := trade_buyer, receiver := trade_app_addr }

/-- The buy call at group index 1. -/
def trade_buy_txn : Txn :=
  { sender := trade_buyer, application_args := [bytes_buy], assets := [trade_tid],
    group_index := 1, application_id := 1, on_completion := OnComplete.noOp }

/-- The buy group: the payment followed by the call. -/
def trade_buy_group : List GTxn :=
  [trade_pay_gtxn, { type_enum := TxnType.applicationCall, sender := trade_buyer }]

/-- The close call by the seller, alone in its group. -/
def trade_close_txn : Txn :=
  { sender := trade_seller, application_args := [bytes_close], assets := [],
    group_index := 0, application_id := 1, on_completion := OnComplete.noOp }

/-- The whole demo lifecycle of example.py run against the embedded
program and ledger: create, then the open group (call first, sibling
deposit second), then the buy group (payment first, call second), then
the close call. Returns the final global state and ledger together with
the ledger as it stood right after the buy group. -/
def trade_run : Option (GlobalState × Ledger × Ledger) := do
  let r0 ← approval_program { open_price := 0, seller := [], token_id := 0 }
    (mkCtx trade_app_addr trade_l0) trade_create_txn []
  let r1 ← approval_program r0.1 (mkCtx trade_app_addr trade_l0)
    trade_open_txn trade_open_group
  let l1 ← applyInners trade_tid trade_app_addr trade_l0 r1.2
  let l2 ← applyGTxn trade_tid l1 trade_deposit_gtxn
  let l3 ← applyGTxn trade_tid l2 trade_pay_gtxn
  let r2 ← approval_program r1.1 (mkCtx trade_app_addr l3)
    trade_buy_txn trade_buy_group
  let l4 ← applyInners trade_tid trade_app_addr l3 r2.2
  let r3 ← approval_program r2.1 (mkCtx trade_app_addr l4) trade_close_txn []
  let l5 ← applyInners trade_tid trade_app_addr l4 r3.2
  some (r3.1, l4, l5)

/-- Global state used by the close and cancel counterexamples: an opened
listing at price 100000 with seller address 1 and asset id 7. -/
def listed_state : GlobalState :=
  { open_price := 100000, seller := [1], token_id := 7 }

/-- Environment of a close call after a completed buy: the application
account holds 5000000 microalgos of sale proceeds and its asset holding
was closed out. -/
def close_bug_ctx : Ctx :=
  { app_addr := [9], app_balance := 5000000, app_asset_holding := none }

/-- A close call issued by the recorded seller. -/
def close_bug_txn : Txn :=
  { sender := [1], application_args := [bytes_close], assets := [],
    group_index := 0, application_id := 1, on_completion := OnComplete.noOp }

/-- C1. The round-trip property fails on the code: running the full
lifecycle (create the contract for asset 7; open at price 100000 with a
deposit of 50 units; buy with a companion payment of 5000000; close by
the seller) leaves, after buy, contract asset balance 0 and contract
currency balance 5000000 as claimed, but the subsequent close leaves the
seller's currency balance at 0 (not increased by 5000000) and the
contract currency balance still at 5000000 (not 0): on_close computes its
payout as open_price times the asset holding, and the buy close-out
removed that holding. -/
theorem round_trip_close_pays_nothing :
    trade_run.map (fun r =>
      ((r.2.1.asset trade_app_addr).getD 0, r.2.1.algo trade_app_addr,
       r.2.2.algo trade_seller, r.2.2.algo trade_app_addr)) =
    some (0, 5000000, 0, 5000000) := by decide

/-- C2. The claim fails on the code: a close call by the recorded seller
with a nonzero contract currency balance of 5000000 microalgos approves
while submitting no inner payment at all (the asset holding record is
absent, so the code skips send_algo_to entirely); the code never pays the
contract's currency balance, only open_price times the asset holding. -/
theorem close_ignores_currency_balance :
    close_bug_ctx.app_balance = 5000000 ∧
    on_close listed_state close_bug_ctx close_bug_txn = some (listed_state, []) := by
  constructor <;> rfl

/-- Environment of a cancel call where the application account is opted in
to the asset but its balance is zero (reachable by an open whose sibling
deposit carries zero units). -/
def cancel_zero_ctx : Ctx :=
  { app_addr := [9], app_balance := 0, app_asset_holding := some 0 }

/-- A cancel call referencing the traded asset. -/
def cancel_zero_txn : Txn :=
  { sender := [1], application_args := [bytes_cancel], assets := [7],
    group_index := 0, application_id := 1, on_completion := OnComplete.noOp }

/-- C3 counterexample. A cancel call referencing token_id with custodial
asset balance zero is not always rejected: when the application account is
opted in with a zero-unit holding, the call approves and submits the
close-out inner transfer, because the code tests only whether the holding
record exists, not whether its value is positive. -/
theorem cancel_approves_on_zero_balance_holding :
    cancel_zero_ctx.app_asset_holding.getD 0 = 0 ∧
    on_cancel listed_state cancel_zero_ctx cancel_zero_txn =
      some (listed_state, [closeout_inner 7 [1]]) := by
  constructor <;> rfl

/-- C8 counterexample. Instantiation does not always succeed: a creation
transaction whose foreign-asset array is empty is rejected, because
reading Txn.assets 0 is then a TEAL error. -/
theorem create_without_asset_fails :
    approval_program { open_price := 0, seller := [], token_id := 0 }
      { app_addr := [9], app_balance := 0, app_asset_holding := none }
      { sender := [1], application_args := [], assets := [], group_index := 0,
        application_id := 0, on_completion := OnComplete.noOp } [] = none := rfl

/-- C6. Every close call whose caller differs from the stored seller is
rejected, whatever the balances and the rest of the state: the seller
equality assert is the first statement of on_close. -/
theorem close_rejects_non_seller (st : GlobalState) (ctx : Ctx) (txn : Txn)
    (h : st.seller ≠ txn.sender) : on_close st ctx txn = none := by
  unfold on_close
  exact if_neg h

/-- Witness for close_rejects_non_seller: a close call from address 2
against stored seller address 1 is rejected. -/
theorem close_rejects_non_seller_witness :
    on_close listed_state close_bug_ctx
      { sender := [2], application_args := [bytes_close], assets := [],
        group_index := 0, application_id := 1, on_completion := OnComplete.noOp } =
      none :=
  close_rejects_non_seller _ _ _ (by decide)

/-- C3 amended. A cancel call referencing token_id is decided solely by
the existence of the application account's holding record of the asset:
with no holding record the call is rejected (the explicit Reject at the
end of on_cancel, never a silent success), and with a holding record —
whatever its value, including zero — the whole balance is closed out to
the caller and the call approves. -/
theorem cancel_rejects_iff_no_holding (st : GlobalState) (ctx : Ctx) (txn : Txn)
    (h : txn.assets.head? = some st.token_id) :
    on_cancel st ctx txn =
      (match ctx.app_asset_holding with
       | none => none
       | some _ => some (st, [closeout_inner st.token_id txn.sender])) := by
  unfold on_cancel
  rw [h]
  cases ctx.app_asset_holding <;> simp

/-- Witness for cancel_rejects_iff_no_holding: with a holding of 50 units
the cancel call approves and closes the holding out to the caller. -/
theorem cancel_rejects_iff_no_holding_witness :
    on_cancel listed_state
      { app_addr := [9], app_balance := 0, app_asset_holding := some 50 }
      cancel_zero_txn = some (listed_state, [closeout_inner 7 [1]]) :=
  cancel_rejects_iff_no_holding _ _ _ (by decide)

/-- C7. An open call whose group has no transaction right after the call,
or whose following transaction is not an asset transfer, or transfers an
asset other than token_id, is rejected; the whole atomic group aborts and
no global state changes (rejection returns none, applying nothing). -/
theorem open_rejects_bad_sibling (st : GlobalState) (ctx : Ctx) (txn : Txn)
    (group : List GTxn)
    (h : ∀ sib, group.get? (txn.group_index + 1) = some sib →
      sib.type_enum ≠ TxnType.assetTransfer ∨ sib.xfer_asset ≠ st.token_id) :
    on_open st ctx txn group = none := by
  unfold on_open
  split
  · rfl
  next pb harg =>
    split
    · rfl
    next price hb =>
      split
      · rfl
      next sib hs =>
        rw [if_neg]
        intro hc
        rcases h sib hs with h1 | h1
        · exact h1 hc.1
        · exact h1 hc.2

/-- Witness for open_rejects_bad_sibling: an open call whose following
group transaction is a payment instead of an asset transfer is rejected. -/
theorem open_rejects_bad_sibling_witness :
    on_open listed_state close_bug_ctx trade_open_txn
      [{ type_enum := TxnType.applicationCall }, trade_pay_gtxn] = none :=
  open_rejects_bad_sibling _ _ _ _ (by
    intro sib hs
    have hsib : trade_pay_gtxn = sib := by simpa [trade_open_txn] using hs
    rw [← hsib]
    exact Or.inl (by decide))

/-- Inversion of a successful buy: the global state is returned untouched,
the group index is positive (index 0 would underflow), the transaction
right before the call exists and is a payment of exactly open_price times
the custodial holding value, the first referenced asset is token_id, the
holding value is positive, the product fits 64 bits, and the single inner
transaction closes the holding out to the caller. -/
theorem on_buy_inv (st : GlobalState) (ctx : Ctx) (txn : Txn) (group : List GTxn)
    (res : GlobalState × List InnerTxn) (h : on_buy st ctx txn group = some res) :
    res = (st, [closeout_inner st.token_id txn.sender]) ∧
    1 ≤ txn.group_index ∧
    (group.get? (txn.group_index - 1)).map (fun pt => (pt.type_enum, pt.amount)) =
      some (TxnType.payment, st.open_price * ctx.app_asset_holding.getD 0) ∧
    txn.assets.head? = some st.token_id ∧
    0 < ctx.app_asset_holding.getD 0 ∧
    st.open_price * ctx.app_asset_holding.getD 0 < 2 ^ 64 := by
  unfold on_buy at h
  split at h
  · cases h
  next hgi =>
    split at h
    · cases h
    next pt hpt =>
      split at h
      · cases h
      next a0 ha0 =>
        split at h
        · cases h
        next prod hprod =>
          split at h
          · next hc =>
              obtain ⟨hty, hamt, htid, hpos⟩ := hc
              unfold mul64 at hprod
              split at hprod
              · next hlt =>
                  injection hprod with hprod
                  injection h with h
                  subst hprod
                  refine ⟨h.symm, Nat.one_le_iff_ne_zero.mpr hgi, ?_, ?_, hpos, hlt⟩
                  · rw [hpt]
                    simp [hty, hamt]
                  · rw [ha0, htid]
              · cases hprod
          · cases h

/-- C4. First part: any buy whose companion transaction (the one right
before it in the group) carries an amount different from open_price times
the custodial asset balance, or whose custodial balance is zero, is
rejected; a rejected call aborts the whole group, so the custodial
balance and all global state are unchanged. Second part: a buy accepted
by the contract leaves the global state unchanged and requires the
companion to be a payment of exactly open_price times the custodial
balance, with that balance positive. -/
theorem buy_requires_exact_payment :
    (∀ (st : GlobalState) (ctx : Ctx) (txn : Txn) (group : List GTxn) (pt : GTxn),
      group.get? (txn.group_index - 1) = some pt →
      (pt.amount ≠ st.open_price * ctx.app_asset_holding.getD 0 ∨
        ctx.app_asset_holding.getD 0 = 0) →
      on_buy st ctx txn group = none) ∧
    (∀ (st : GlobalState) (ctx : Ctx) (txn : Txn) (group : List GTxn)
      (res : GlobalState × List InnerTxn), on_buy st ctx txn group = some res →
      res.1 = st ∧
      (group.get? (txn.group_index - 1)).map (fun pt => (pt.type_enum, pt.amount)) =
        some (TxnType.payment, st.open_price * ctx.app_asset_holding.getD 0) ∧
      0 < ctx.app_asset_holding.getD 0) := by
  constructor
  · intro st ctx txn group pt hpt hbad
    cases hb : on_buy st ctx txn group with
    | none => rfl
    | some res =>
      obtain ⟨_, _, hmap, _, hpos, _⟩ := on_buy_inv st ctx txn group res hb
      rw [hpt] at hmap
      simp only [Option.map_some', Option.some.injEq, Prod.mk.injEq] at hmap
      rcases hbad with hbad | hbad
      · exact absurd hmap.2 hbad
      · rw [hbad] at hpos
        exact absurd hpos (lt_irrefl 0)
  · intro st ctx txn group res h
    obtain ⟨hres, _, hmap, _, hpos, _⟩ := on_buy_inv st ctx txn group res h
    exact ⟨by rw [hres], hmap, hpos⟩

/-- Witness for buy_requires_exact_payment: the accepting buy of the demo
lifecycle, a payment of 5000000 for 50 units at price 100000. -/
theorem buy_requires_exact_payment_witness :
    ((listed_state, [closeout_inner 7 [2]]) : GlobalState × List InnerTxn).1 =
        listed_state ∧
    ((trade_buy_group.get? (trade_buy_txn.group_index - 1)).map
        (fun pt => (pt.type_enum, pt.amount)) =
      some (TxnType.payment, listed_state.open_price *
        (Option.getD (some 50) 0))) ∧
    0 < Option.getD (some 50) 0 :=
  buy_requires_exact_payment.2 listed_state
    { app_addr := [9], app_balance := 5000000, app_asset_holding := some 50 }
    trade_buy_txn trade_buy_group (listed_state, [closeout_inner 7 [2]])
    (by decide)

/-- A successful close returns the global state untouched. -/
theorem on_close_state_eq (st : GlobalState) (ctx : Ctx) (txn : Txn)
    (res : GlobalState × List InnerTxn) (h : on_close st ctx txn = some res) :
    res.1 = st := by
  unfold on_close at h
  split at h
  · split at h
    · injection h with h
      rw [← h]
    · split at h
      · cases h
      · injection h with h
        rw [← h]
  · cases h

/-- A successful cancel returns the global state untouched. -/
theorem on_cancel_state_eq (st : GlobalState) (ctx : Ctx) (txn : Txn)
    (res : GlobalState × List InnerTxn) (h : on_cancel st ctx txn = some res) :
    res.1 = st := by
  unfold on_cancel at h
  split at h
  · cases h
  · split at h
    · split at h
      · injection h with h
        rw [← h]
      · cases h
    · cases h

/-- Inversion of a successful open: the result writes only open_price (to
the decoded price argument) and seller (to the caller) on top of the old
state, and submits exactly the self opt-in inner transfer. -/
theorem on_open_inv (st : GlobalState) (ctx : Ctx) (txn : Txn) (group : List GTxn)
    (res : GlobalState × List InnerTxn) (h : on_open st ctx txn group = some res) :
    ∃ price, res = ({ st with open_price := price, seller := txn.sender },
                    [open_inner st.token_id ctx.app_addr]) := by
  unfold on_open at h
  split at h
  · cases h
  · split at h
    · cases h
    next price hb =>
      split at h
      · cases h
      · split at h
        · injection h with h
          exact ⟨price, h.symm⟩
        · cases h

/-- C10. Frame property of the four methods: a successful buy, close or
cancel returns the global key-value store byte-for-byte unchanged, and a
successful open leaves token_id unchanged, writing only open_price and
seller; a rejected call aborts the whole group, so it changes nothing
either. Together with on_create (which writes token_id only), only create
writes token_id and only open writes open_price and seller. -/
theorem calls_preserve_globals :
    (∀ st ctx txn group res, on_buy st ctx txn group = some res → res.1 = st) ∧
    (∀ st ctx txn res, on_close st ctx txn = some res → res.1 = st) ∧
    (∀ st ctx txn res, on_cancel st ctx txn = some res → res.1 = st) ∧
    (∀ st ctx txn group res, on_open st ctx txn group = some res →
      res.1.token_id = st.token_id ∧ res.1.seller = txn.sender) := by
  refine ⟨?_, on_close_state_eq, on_cancel_state_eq, ?_⟩
  · intro st ctx txn group res h
    obtain ⟨hres, _⟩ := on_buy_inv st ctx txn group res h
    rw [hres]
  · intro st ctx txn group res h
    obtain ⟨price, hres⟩ := on_open_inv st ctx txn group res h
    rw [hres]
    exact ⟨rfl, rfl⟩

/-- Witness for calls_preserve_globals: the accepting demo buy returns the
listed state unchanged. -/
theorem calls_preserve_globals_witness :
    ((listed_state, [closeout_inner 7 [2]]) : GlobalState × List InnerTxn).1 =
      listed_state :=
  calls_preserve_globals.1 listed_state
    { app_addr := [9], app_balance := 5000000, app_asset_holding := some 50 }
    trade_buy_txn trade_buy_group (listed_state, [closeout_inner 7 [2]])
    (by decide)

/-- A zero-unit self transfer of the asset only materialises a holding
record for the sender (the opt-in): the recorded value is the old balance
read as a number, and no microalgos move. -/
theorem axferApply_self_zero (l : Ledger) (s : Bytes) :
    axferApply l s s none 0 =
      some { l with asset := updMap l.asset s (some ((l.asset s).getD 0)) } := by
  unfold axferApply
  cases hs : l.asset s with
  | none => simp
  | some b => simp

/-- Applying the inner transfer submitted by on_open: it is the zero-unit
self transfer of the application account. -/
theorem applyInnerTxn_open_inner (tid : Nat) (addr : Bytes) (l : Ledger) :
    applyInnerTxn tid addr l (open_inner tid addr) =
      some { l with asset := updMap l.asset addr (some ((l.asset addr).getD 0)) } := by
  unfold applyInnerTxn open_inner
  simp [axferApply_self_zero]

/-- C9. The inner asset transfer issued by a successful open carries no
amount (asset_amount is left at its zero default) and names the
application account itself as receiver; applying it moves zero units:
every account's asset balance and microalgo balance read the same before
and after, so the custodial balance after the open group is determined
entirely by the sibling deposit transaction. -/
theorem open_inner_moves_zero_units (st : GlobalState) (ctx : Ctx) (txn : Txn)
    (group : List GTxn) (res : GlobalState × List InnerTxn) (l l' : Ledger)
    (a : Bytes)
    (h : on_open st ctx txn group = some res)
    (happ : applyInners st.token_id ctx.app_addr l res.2 = some l') :
    res.2 = [open_inner st.token_id ctx.app_addr] ∧
    (open_inner st.token_id ctx.app_addr).asset_amount = 0 ∧
    (open_inner st.token_id ctx.app_addr).asset_receiver = ctx.app_addr ∧
    (l'.asset a).getD 0 = (l.asset a).getD 0 ∧
    l'.algo a = l.algo a := by
  obtain ⟨price, hres⟩ := on_open_inv st ctx txn group res h
  have h2 : res.2 = [open_inner st.token_id ctx.app_addr] := by rw [hres]
  rw [h2] at happ
  unfold applyInners at happ
  simp only [List.foldlM, applyInnerTxn_open_inner, Option.pure_def,
    Option.bind_eq_bind, Option.some_bind, Option.some.injEq] at happ
  refine ⟨h2, rfl, rfl, ?_, ?_⟩
  · rw [← happ]
    unfold updMap
    by_cases ha : a = ctx.app_addr
    · subst ha
      simp
    · simp [ha]
  · rw [← happ]

/-- Witness data for the open claims: the global state right after the
demo open call. -/
def opened_state : GlobalState :=
  { open_price := 100000, seller := [1], token_id := 7 }

/-- Witness data: the result of the demo open call. -/
def open_res : GlobalState × List InnerTxn :=
  (opened_state, [open_inner 7 trade_app_addr])

/-- Witness data: the demo ledger after the application account's self
opt-in. -/
def opted_l : Ledger :=
  { trade_l0 with asset := updMap trade_l0.asset trade_app_addr (some 0) }

/-- Witness for open_inner_moves_zero_units at the demo open call, reading
the seller's balances. -/
theorem open_inner_moves_zero_units_witness :
    open_res.2 = [open_inner 7 trade_app_addr] ∧
    (open_inner 7 trade_app_addr).asset_amount = 0 ∧
    (open_inner 7 trade_app_addr).asset_receiver = trade_app_addr ∧
    (opted_l.asset trade_seller).getD 0 = (trade_l0.asset trade_seller).getD 0 ∧
    opted_l.algo trade_seller = trade_l0.algo trade_seller :=
  open_inner_moves_zero_units
    { open_price := 0, seller := [], token_id := 7 }
    (mkCtx trade_app_addr trade_l0) trade_open_txn trade_open_group
    open_res trade_l0 opted_l trade_seller (by decide) rfl

/-- Dispatch preserves token_id: every method handler reached through
on_call returns a state with the same token_id. -/
theorem on_call_token_eq (st : GlobalState) (ctx : Ctx) (txn : Txn)
    (group : List GTxn) (res : GlobalState × List InnerTxn)
    (h : on_call st ctx txn group = some res) :
    res.1.token_id = st.token_id := by
  unfold on_call at h
  split at h
  · cases h
  · split at h
    · obtain ⟨price, hres⟩ := on_open_inv _ _ _ _ _ h
      rw [hres]
    · split at h
      · obtain ⟨hres, _⟩ := on_buy_inv _ _ _ _ _ h
        rw [hres]
      · split at h
        · rw [on_close_state_eq _ _ _ _ h]
        · split at h
          · rw [on_cancel_state_eq _ _ _ _ h]
          · cases h

/-- C8 amended. The token_id key is written exactly once, at contract
instantiation, to the first entry of the instantiating transaction's
referenced asset list; instantiation is rejected when that list is empty
and succeeds otherwise; and no later invocation of the approval program
(open, buy, close, cancel, delete) nor the clear state program ever
changes token_id. -/
theorem token_id_fixed_at_creation :
    (∀ txn : Txn, txn.assets = [] → on_create txn = none) ∧
    (∀ (txn : Txn) (tid : Nat) (rest : List Nat), txn.assets = tid :: rest →
      on_create txn = some ({ open_price := 0, seller := [], token_id := tid }, [])) ∧
    (∀ st ctx txn group res, txn.application_id ≠ 0 →
      approval_program st ctx txn group = some res →
      res.1.token_id = st.token_id) ∧
    (∀ st, clear_state_program st = some (st, [])) := by
  refine ⟨?_, ?_, ?_, fun st => rfl⟩
  · intro txn h
    unfold on_create
    rw [h]
    rfl
  · intro txn tid rest h
    unfold on_create
    rw [h]
    rfl
  · intro st ctx txn group res hid h
    unfold approval_program at h
    rw [if_neg hid] at h
    split at h
    · exact on_call_token_eq _ _ _ _ _ h
    · unfold on_delete at h
      injection h with h
      rw [← h]
    · cases h
    · cases h
    · cases h

/-- Witness for token_id_fixed_at_creation: the demo creation stores asset
id 7. -/
theorem token_id_fixed_at_creation_witness :
    on_create trade_create_txn =
      some ({ open_price := 0, seller := [], token_id := 7 }, []) :=
  token_id_fixed_at_creation.2.1 trade_create_txn 7 [] rfl

/-- A deposit of Q units from an account holding B of the asset, with
Q at most B, into a distinct account opted in with balance zero, leaves
the receiving account holding exactly Q units. -/
theorem axferApply_deposit (l : Ledger) (s r : Bytes) (Q B : Nat)
    (hs : l.asset s = some B) (hQB : Q ≤ B) (hr : l.asset r = some 0)
    (hrs : r ≠ s) :
    (axferApply l s r none Q).map (fun l2 => l2.asset r) = some (some Q) := by
  unfold axferApply
  rw [hs]
  by_cases hQ : Q = 0
  · subst hQ
    simp [updMap, hrs, hr]
  · simp [updMap, hrs, hr, hQ, hQB]

/-- C5. A valid open call (a price argument decoding to P via Btoi,
followed in the group by an asset transfer of token_id carrying Q units
into the application account) approves with post-state open_price = P and
seller = caller, and once its inner opt-in and the sibling deposit are
applied to a ledger on which the listing was inactive (custodial balance
reading zero), the application account's custodial asset balance is
exactly the deposited amount Q. -/
theorem open_records_listing (st : GlobalState) (ctx : Ctx) (txn : Txn)
    (group : List GTxn) (l : Ledger) (pb : Bytes) (P Q B : Nat) (sib : GTxn)
    (hargs : txn.application_args.get? 1 = some pb)
    (hbtoi : btoi pb = some P)
    (hsib : group.get? (txn.group_index + 1) = some sib)
    (hty : sib.type_enum = TxnType.assetTransfer)
    (hasset : sib.xfer_asset = st.token_id)
    (hrecv : sib.receiver = ctx.app_addr)
    (hamt : sib.asset_amount = Q)
    (hdep : l.asset sib.sender = some B)
    (hQB : Q ≤ B)
    (hne : sib.sender ≠ ctx.app_addr)
    (hfresh : (l.asset ctx.app_addr).getD 0 = 0) :
    on_open st ctx txn group =
      some ({ st with open_price := P, seller := txn.sender },
            [open_inner st.token_id ctx.app_addr]) ∧
    ((applyInners st.token_id ctx.app_addr l
        [open_inner st.token_id ctx.app_addr]).bind
      (fun l1 => applyGTxn st.token_id l1 sib)).map
        (fun l2 => l2.asset ctx.app_addr) = some (some Q) := by
  constructor
  · unfold on_open
    simp only [hargs, hbtoi, hsib]
    rw [if_pos ⟨hty, hasset⟩]
  · have h1 : applyInners st.token_id ctx.app_addr l
        [open_inner st.token_id ctx.app_addr] =
        some { l with asset := updMap l.asset ctx.app_addr (some 0) } := by
      unfold applyInners
      simp only [List.foldlM, applyInnerTxn_open_inner, Option.pure_def,
        Option.bind_eq_bind, Option.some_bind]
      rw [hfresh]
    rw [h1, Option.some_bind]
    unfold applyGTxn
    rw [hty, hasset, if_pos rfl, hrecv, hamt]
    refine axferApply_deposit _ _ _ _ B ?_ hQB ?_ (Ne.symm hne)
    · simp [updMap, hne, hdep]
    · simp [updMap]

/-- Witness for open_records_listing: the demo open call, price 100000 and
a deposit of 50 units from the seller holding 100. -/
theorem open_records_listing_witness :
    on_open { open_price := 0, seller := [], token_id := 7 }
        (mkCtx trade_app_addr trade_l0) trade_open_txn trade_open_group =
      some (opened_state, [open_inner 7 trade_app_addr]) ∧
    ((applyInners 7 trade_app_addr trade_l0 [open_inner 7 trade_app_addr]).bind
      (fun l1 => applyGTxn 7 l1 trade_deposit_gtxn)).map
        (fun l2 => l2.asset trade_app_addr) = some (some 50) :=
  open_records_listing { open_price := 0, seller := [], token_id := 7 }
    (mkCtx trade_app_addr trade_l0) trade_open_txn trade_open_group trade_l0
    trade_price_bytes 100000 50 100 trade_deposit_gtxn
    (by decide) (by decide) (by decide) (by decide) (by decide) (by decide)
    (by decide) (by decide) (by decide) (by decide) (by decide)

end Trading
